import Mathlib

/-!
A shallow embedding of `libs/langchain/langchain/automaton/agent_implementations/rag_agent.py`
(the RAG chat agent: `prompt_generator`, `RagAgent.step`, `RagAgent.run`), together with
theorems settling the specification claims about it.

External collaborators (the LLM program built by `create_llm_program`, the retriever
adapter built by `create_retriever`, the working-memory manager) live outside this file
in the original repository; they are modelled as abstract function fields of the agent,
universally quantified in every theorem, exactly as dependency injection makes them.
-/

/-- A retrieval result, `{page_content, metadata}` (spec section 3): `page_content` is text,
`metadata` a string-keyed mapping whose values are interpolated as text by the prompt
generator. The mapping is modelled as an association list with first-match lookup. -/
structure Document where
  page_content : String
  metadata : List (String × String)
deriving Repr, DecidableEq

/-- A chat message (`BaseMessage` in the source): human-authored (`HumanMessage`),
AI-authored (`AIMessage`), or any other generic chat message (system, tool, ...)
carrying a role tag and content. -/
inductive BaseMessage where
  | human (content : String)
  | ai (content : String)
  | chat (role : String) (content : String)
deriving Repr, DecidableEq

/-- A message-like event flowing through the agent log (`MessageLike` in the source):
either a chat message (`isinstance(message, BaseMessage)` in the source), a
`RetrievalRequest {query}`, a `RetrievalResponse {results}`, or an `AgentFinish` signal. -/
inductive MessageLike where
  | msg (m : BaseMessage)
  | retrievalRequest (query : String)
  | retrievalResponse (results : List Document)
  | agentFinish
deriving Repr, DecidableEq

/-- Concatenation of a list of strings in order (used to state rendering claims). -/
def strConcat : List String → String
  | [] => ""
  | s :: rest => s ++ strConcat rest

/-- The metadata portion of one rendered result: the loop
`for field in ["title", "description", "source"]: if field in doc.metadata:
prompt += f"{doc.metadata[field]}\n"` of `prompt_generator` (rag_agent.py lines 54-56). -/
def metaStr (doc : Document) : String :=
  ["title", "description", "source"].foldl
    (fun prompt field =>
      match doc.metadata.lookup field with
      | some v => prompt ++ (v ++ "\n")
      | none => prompt)
    ""

/-- The metadata fields of `["title", "description", "source"]` present in a document,
each rendered as its value followed by a newline and no field label. -/
def presentMeta (doc : Document) : List String :=
  ["title", "description", "source"].filterMap
    (fun field => (doc.metadata.lookup field).map (fun v => v ++ "\n"))

/-- One rendered result block of `prompt_generator` (rag_agent.py lines 51-57):
`"--- Result {idx} ---\n"`, then `"Text:\n"`, then the page content, then the present
metadata values, then `"--- End Result {idx} ---\n"`. -/
def renderDoc (idx : Nat) (doc : Document) : String :=
  ("--- Result " ++ toString idx ++ " ---\n")
    ++ "Text:\n"
    ++ doc.page_content
    ++ metaStr doc
    ++ ("--- End Result " ++ toString idx ++ " ---\n")

/-- The body rendered for a `RetrievalResponse` (rag_agent.py lines 47-59): the literal
no-results text when `message.results` is empty, otherwise the result blocks accumulated
in order over `enumerate(message.results)`. -/
def renderResponse (results : List Document) : String :=
  if results.isEmpty then "Found no results for the query."
  else results.enum.foldl (fun prompt p => prompt ++ renderDoc p.1 p.2) ""

/-- `prompt_generator` (rag_agent.py lines 40-68): chat messages pass through, each
`RetrievalResponse` becomes one synthetic human message wrapping its rendered body in
`"Context: <result>\n"` and `"\n</result>"`, and every other event is skipped. The
source builds the output by appending inside a loop; the recursion here produces the
same list in the same order. -/
def prompt_generator : List MessageLike → List BaseMessage
  | [] => []
  | .msg m :: rest => m :: prompt_generator rest
  | .retrievalResponse results :: rest =>
      .human ("Context: <result>\n" ++ renderResponse results ++ "\n</result>")
        :: prompt_generator rest
  | .retrievalRequest _ :: rest => prompt_generator rest
  | .agentFinish :: rest => prompt_generator rest

/-- The runtime error raised when `run` calls `.process` on a `None` memory manager. -/
inductive PyRuntimeError where
  | attributeError (message : String)
deriving Repr, DecidableEq

/-- The agent state after `RagAgent.__init__` (rag_agent.py lines 74-106), over an
abstract configuration type `C` (`RunnableConfig`). `llm_program` is the collaborator
built by `create_llm_program`, `retriever` the adapter built by `create_retriever`
(modelled by the results of the `RetrievalResponse` it returns for a query, per spec
section 6: `invoke(retrieval_request, config) -> RetrievalResponse`), and
`memory_manager` the caller-supplied manager, `none` when the defaulted `None` was kept. -/
structure RagAgent (C : Type) where
  llm_program : List MessageLike → Option C → List MessageLike
  retriever : String → Option C → List Document
  memory_manager : Option (List MessageLike → List MessageLike)

/-- The retriever adapter response `self.retriever.invoke(last_message, config=config)`:
a `RetrievalResponse` carrying the retrieved results for the request query. -/
def RagAgent.retrieverInvoke {C : Type} (a : RagAgent C) (query : String)
    (config : Option C) : MessageLike :=
  .retrievalResponse (a.retriever query config)

/-- `RagAgent.step` (rag_agent.py lines 108-128): dispatch on the last event of the log.
Empty log, AI-authored message and finish signal return nothing; a human-authored
message becomes a retrieval request over its content; a retrieval request is answered by
the retriever adapter; everything else is routed to the LLM program over the full log. -/
def RagAgent.step {C : Type} (a : RagAgent C) (messages : List MessageLike)
    (config : Option C) : List MessageLike :=
  match messages.getLast? with
  | none => []
  | some (.msg (.ai _)) => []
  | some .agentFinish => []
  | some (.msg (.human content)) => [.retrievalRequest content]
  | some (.retrievalRequest query) => [a.retrieverInvoke query config]
  | some _ => a.llm_program messages config

/-- `RagAgent.run` (rag_agent.py lines 130-145), as the list of events the generator
yields. Each of the up-to-`max_iterations` rounds replaces the log with
`memory_manager.process(log)`, computes `step`, stops when the step is empty, and
otherwise yields the new events in order and appends them to the log. Calling `.process`
on a `None` manager raises before the first round yields anything, which the `Except`
error captures. -/
def RagAgent.run {C : Type} (a : RagAgent C) (config : Option C) :
    Nat → List MessageLike → Except PyRuntimeError (List MessageLike)
  | 0, _ => .ok []
  | Nat.succ n, log =>
    match a.memory_manager with
    | none => .error (.attributeError "NoneType object has no attribute process")
    | some process =>
      let processed := process log
      let new := a.step processed config
      if new.isEmpty then .ok []
      else (a.run config n (processed ++ new)).map (fun rest => new ++ rest)

/-- The default of the `max_iterations` parameter of `run` (rag_agent.py line 135). -/
def defaultMaxIterations : Nat := 100

/-- `run` with `max_iterations` left at its default. -/
def RagAgent.runDefault {C : Type} (a : RagAgent C) (config : Option C)
    (messages : List MessageLike) : Except PyRuntimeError (List MessageLike) :=
  a.run config defaultMaxIterations messages

/-- The per-round lists of new events produced by the rounds `run` executes: one entry
per round that yielded events, in round order. Its length counts the executed yielding
rounds. -/
def RagAgent.roundOutputs {C : Type} (a : RagAgent C) (config : Option C) :
    Nat → List MessageLike → List (List MessageLike)
  | 0, _ => []
  | Nat.succ n, log =>
    match a.memory_manager with
    | none => []
    | some process =>
      let processed := process log
      let new := a.step processed config
      if new.isEmpty then [] else new :: a.roundOutputs config n (processed ++ new)

/-- `RagAgent.__init__` (rag_agent.py lines 74-106) at the collaborator level: the LLM
program and the retriever adapter are built once and stored; the memory manager is
stored exactly as supplied. When no retriever is supplied, `create_retriever`
substitutes a no-op adapter (modelled from the spec, section 6: `create_retriever` is
outside this file and "a no-op/null adapter is substituted if none is supplied"). No
such substitution happens for the memory manager: the parameter defaults to `None` and
is kept. -/
def mkRagAgent {C : Type} (llm_program : List MessageLike → Option C → List MessageLike)
    (retriever : Option (String → Option C → List Document))
    (memory_manager : Option (List MessageLike → List MessageLike)) : RagAgent C :=
  { llm_program := llm_program
    retriever :=
      match retriever with
      | some r => r
      | none => fun _ _ => []
    memory_manager := memory_manager }

/-- The chat message carried by an event, when it is one (`isinstance(m, BaseMessage)`). -/
def MessageLike.chatOf : MessageLike → Option BaseMessage
  | .msg m => some m
  | _ => none

/-- Events falling through to the default branch of the `step` match: generic chat
messages that are neither human- nor AI-authored, and retrieval responses. -/
def MessageLike.isStepOther : MessageLike → Bool
  | .msg (.chat _ _) => true
  | .retrievalResponse _ => true
  | _ => false

/-- Events that `prompt_generator` recognizes neither as a chat message nor as a
`RetrievalResponse`, and therefore skips. -/
def MessageLike.isDropped : MessageLike → Bool
  | .retrievalRequest _ => true
  | .agentFinish => true
  | _ => false

/-- `embeds parts s` : the strings `parts` occur inside `s` in order, without overlap. -/
def embeds : List String → String → Prop
  | [], _ => True
  | p :: ps, s => ∃ g rest, s = g ++ p ++ rest ∧ embeds ps rest

/-- A concrete agent instance used by the witness theorems. -/
def exAgent : RagAgent Unit :=
  { llm_program := fun _ _ => []
    retriever := fun _ _ => []
    memory_manager := some id }

theorem prompt_generator_append (xs ys : List MessageLike) :
    prompt_generator (xs ++ ys) = prompt_generator xs ++ prompt_generator ys := by
  induction xs with
  | nil => rfl
  | cons x xs ih =>
    cases x with
    | msg m => simp [prompt_generator, ih]
    | retrievalRequest q => simp [prompt_generator, ih]
    | retrievalResponse r => simp [prompt_generator, ih]
    | agentFinish => simp [prompt_generator, ih]

/-- C2: for every log whose last event is a human-authored chat message with content
`c`, `step` returns exactly `[RetrievalRequest (query := c)]`. The agent `a` is
arbitrary and the result does not mention its collaborators, so neither the retriever
adapter nor the LLM program is consulted. -/
theorem step_human_emits_retrieval_request {C : Type} (a : RagAgent C)
    (config : Option C) (log : List MessageLike) (c : String) :
    a.step (log ++ [.msg (.human c)]) config = [.retrievalRequest c] := by
  simp [RagAgent.step, List.getLast?_concat]

/-- C3: for every log whose last event is a `RetrievalRequest` with query `q`, `step`
returns exactly one element, the retriever adapter response `retriever.invoke` for that
request. -/
theorem step_request_invokes_retriever {C : Type} (a : RagAgent C)
    (config : Option C) (log : List MessageLike) (q : String) :
    a.step (log ++ [.retrievalRequest q]) config = [a.retrieverInvoke q config] := by
  simp [RagAgent.step, List.getLast?_concat]

/-- C4: on an empty log, a log ending in an AI-authored chat message, or a log ending
in an `AgentFinish` signal, `step` returns the empty list. The agent is arbitrary and
the result constant, so no collaborator is invoked. -/
theorem step_terminal_cases_empty {C : Type} (a : RagAgent C) (config : Option C) :
    a.step [] config = []
      ∧ (∀ log c, a.step (log ++ [.msg (.ai c)]) config = [])
      ∧ (∀ log, a.step (log ++ [.agentFinish]) config = []) :=
  ⟨rfl,
    fun log c => by simp [RagAgent.step, List.getLast?_concat],
    fun log => by simp [RagAgent.step, List.getLast?_concat]⟩

/-- C5: when the last event of a non-empty log is neither an AI-authored message, a
finish signal, a human-authored message, nor a retrieval request (that is, a generic
chat message or a `RetrievalResponse`), `step` returns exactly what the LLM program
produces on the full log; `step` itself is total on such events and raises nothing. -/
theorem step_default_invokes_llm_program {C : Type} (a : RagAgent C)
    (config : Option C) (log : List MessageLike) (e : MessageLike)
    (h : e.isStepOther = true) :
    a.step (log ++ [e]) config = a.llm_program (log ++ [e]) config := by
  cases e with
  | msg m =>
    cases m with
    | human c => simp [MessageLike.isStepOther] at h
    | ai c => simp [MessageLike.isStepOther] at h
    | chat r c => simp [RagAgent.step, List.getLast?_concat]
  | retrievalRequest q => simp [MessageLike.isStepOther] at h
  | retrievalResponse r => simp [RagAgent.step, List.getLast?_concat]
  | agentFinish => simp [MessageLike.isStepOther] at h

theorem step_default_invokes_llm_program_witness :
    exAgent.step [MessageLike.retrievalResponse []] none
      = exAgent.llm_program [MessageLike.retrievalResponse []] none := by
  have h := step_default_invokes_llm_program exAgent none []
    (MessageLike.retrievalResponse []) rfl
  simpa using h

/-- C9: a `RetrievalResponse` carrying zero results renders to exactly one synthetic
human-authored message whose content is exactly
`"Context: <result>\nFound no results for the query.\n</result>"`. -/
theorem prompt_generator_empty_results (pre : List MessageLike) :
    prompt_generator (pre ++ [.retrievalResponse []]) =
      prompt_generator pre
        ++ [.human "Context: <result>\nFound no results for the query.\n</result>"] := by
  rw [prompt_generator_append]
  simp only [prompt_generator, renderResponse, List.isEmpty_nil, if_true]
  rfl

theorem prompt_generator_sublist (msgs : List MessageLike) :
    (msgs.filterMap MessageLike.chatOf).Sublist (prompt_generator msgs) := by
  induction msgs with
  | nil => simp [prompt_generator]
  | cons x xs ih =>
    cases x with
    | msg m =>
      simp only [prompt_generator, List.filterMap_cons, MessageLike.chatOf]
      exact List.Sublist.cons₂ _ ih
    | retrievalRequest q =>
      simp only [prompt_generator, List.filterMap_cons, MessageLike.chatOf]
      exact ih
    | retrievalResponse r =>
      simp only [prompt_generator, List.filterMap_cons, MessageLike.chatOf]
      exact List.Sublist.cons _ ih
    | agentFinish =>
      simp only [prompt_generator, List.filterMap_cons, MessageLike.chatOf]
      exact ih

theorem prompt_generator_mem {msgs : List MessageLike} {m : BaseMessage}
    (h : m ∈ prompt_generator msgs) :
    MessageLike.msg m ∈ msgs
      ∨ ∃ results, MessageLike.retrievalResponse results ∈ msgs
          ∧ m = .human ("Context: <result>\n" ++ renderResponse results ++ "\n</result>") := by
  induction msgs with
  | nil => simp [prompt_generator] at h
  | cons x xs ih =>
    cases x with
    | msg m2 =>
      simp only [prompt_generator, List.mem_cons] at h
      rcases h with rfl | h
      · exact Or.inl (List.mem_cons_self _ _)
      · rcases ih h with h1 | ⟨r, hr, he⟩
        · exact Or.inl (List.mem_cons_of_mem _ h1)
        · exact Or.inr ⟨r, List.mem_cons_of_mem _ hr, he⟩
    | retrievalRequest q =>
      simp only [prompt_generator] at h
      rcases ih h with h1 | ⟨r, hr, he⟩
      · exact Or.inl (List.mem_cons_of_mem _ h1)
      · exact Or.inr ⟨r, List.mem_cons_of_mem _ hr, he⟩
    | retrievalResponse r2 =>
      simp only [prompt_generator, List.mem_cons] at h
      rcases h with rfl | h
      · exact Or.inr ⟨r2, List.mem_cons_self _ _, rfl⟩
      · rcases ih h with h1 | ⟨r, hr, he⟩
        · exact Or.inl (List.mem_cons_of_mem _ h1)
        · exact Or.inr ⟨r, List.mem_cons_of_mem _ hr, he⟩
    | agentFinish =>
      simp only [prompt_generator] at h
      rcases ih h with h1 | ⟨r, hr, he⟩
      · exact Or.inl (List.mem_cons_of_mem _ h1)
      · exact Or.inr ⟨r, List.mem_cons_of_mem _ hr, he⟩

theorem prompt_generator_skips (pre : List MessageLike) (e : MessageLike)
    (post : List MessageLike) (h : e.isDropped = true) :
    prompt_generator (pre ++ e :: post) = prompt_generator (pre ++ post) := by
  have he : prompt_generator (e :: post) = prompt_generator post := by
    cases e with
    | msg m => simp [MessageLike.isDropped] at h
    | retrievalResponse r => simp [MessageLike.isDropped] at h
    | retrievalRequest q => simp [prompt_generator]
    | agentFinish => simp [prompt_generator]
  rw [prompt_generator_append, prompt_generator_append, he]

/-- C10: `prompt_generator` is a pure mapping of its input sequence. The list of chat
messages of the input is a sublist of the output (each passes through unchanged, in
its original relative order); events that are neither chat messages nor retrieval
responses are dropped without affecting the rest of the output and without error; and
every output message is either a chat message of the input or the rendering of a
retrieval response of the input, nothing else. Purity holds by construction: the
embedding is a total function of the input list alone. -/
theorem prompt_generator_pure_mapping (msgs : List MessageLike) :
    (msgs.filterMap MessageLike.chatOf).Sublist (prompt_generator msgs)
      ∧ (∀ pre e post, MessageLike.isDropped e = true →
          prompt_generator (pre ++ e :: post) = prompt_generator (pre ++ post))
      ∧ (∀ m, m ∈ prompt_generator msgs →
          MessageLike.msg m ∈ msgs
            ∨ ∃ results, MessageLike.retrievalResponse results ∈ msgs
                ∧ m = .human
                    ("Context: <result>\n" ++ renderResponse results ++ "\n</result>")) :=
  ⟨prompt_generator_sublist msgs,
    fun pre e post h => prompt_generator_skips pre e post h,
    fun _ h => prompt_generator_mem h⟩

theorem prompt_generator_pure_mapping_witness :
    prompt_generator [MessageLike.agentFinish] = prompt_generator []
      ∧ (MessageLike.msg (.human "hi") ∈ [MessageLike.msg (.human "hi")]
          ∨ ∃ results,
              MessageLike.retrievalResponse results ∈ [MessageLike.msg (.human "hi")]
                ∧ BaseMessage.human "hi"
                    = .human ("Context: <result>\n" ++ renderResponse results
                        ++ "\n</result>")) := by
  constructor
  · have h := (prompt_generator_pure_mapping []).2.1 [] MessageLike.agentFinish [] rfl
    simpa using h
  · exact (prompt_generator_pure_mapping [MessageLike.msg (.human "hi")]).2.2 _
      (by simp [prompt_generator])

theorem foldl_append_eq_strConcat {α : Type} (f : α → String) (l : List α) (acc : String) :
    l.foldl (fun p x => p ++ f x) acc = acc ++ strConcat (l.map f) := by
  induction l generalizing acc with
  | nil => simp [strConcat]
  | cons x xs ih => simp [List.foldl_cons, strConcat, ih, String.append_assoc]

theorem metaStr_eq_strConcat (doc : Document) : metaStr doc = strConcat (presentMeta doc) := by
  unfold metaStr presentMeta
  cases h1 : doc.metadata.lookup "title" <;>
    cases h2 : doc.metadata.lookup "description" <;>
      cases h3 : doc.metadata.lookup "source" <;>
        simp [h1, h2, h3, strConcat, String.append_assoc]

theorem embeds_of_strConcat (ps qs : List String) (t : String) (h : embeds qs t) :
    embeds (ps ++ qs) (strConcat ps ++ t) := by
  induction ps with
  | nil => simpa [strConcat] using h
  | cons p ps ih =>
    exact ⟨"", strConcat ps ++ t, by simp [strConcat, String.append_assoc], ih⟩

theorem renderDoc_split (i : Nat) (doc : Document) :
    renderDoc i doc
      = ("--- Result " ++ toString i ++ " ---") ++ "\n" ++ "Text:\n" ++ doc.page_content
          ++ strConcat (presentMeta doc)
          ++ (("--- End Result " ++ toString i ++ " ---") ++ "\n") := by
  rw [renderDoc, metaStr_eq_strConcat, show (" ---\n" : String) = " ---" ++ "\n" from rfl]
  simp [String.append_assoc]

theorem renderDoc_embeds (i : Nat) (doc : Document) :
    embeds (("--- Result " ++ toString i ++ " ---") :: doc.page_content
        :: (presentMeta doc ++ ["--- End Result " ++ toString i ++ " ---"]))
      (renderDoc i doc) := by
  refine ⟨"", "\n" ++ "Text:\n" ++ doc.page_content ++ metaStr doc
      ++ ("--- End Result " ++ toString i ++ " ---\n"), ?_, ?_⟩
  · rw [renderDoc, show (" ---\n" : String) = " ---" ++ "\n" from rfl]
    simp [String.append_assoc]
    rfl
  · refine ⟨"\n" ++ "Text:\n", metaStr doc
        ++ ("--- End Result " ++ toString i ++ " ---\n"), ?_, ?_⟩
    · simp [String.append_assoc]
    · rw [metaStr_eq_strConcat]
      apply embeds_of_strConcat
      refine ⟨"", "\n", ?_, True.intro⟩
      rw [show (" ---\n" : String) = " ---" ++ "\n" from rfl]
      simp [String.append_assoc]

/-- C8: a `RetrievalResponse` with a non-empty result list renders to one synthetic
human-authored message whose content wraps the body exactly in `"Context: <result>\n"`
and `"\n</result>"`; the body is the concatenation of one block per result in order;
and each block for zero-based index `i` is exactly the numbered opening marker, a
newline, the `"Text:\n"` label, the page content, the present metadata values of
`title`, `description`, `source` each rendered as the bare value followed by a newline
with no field label, and the numbered end marker — in particular the opening marker,
the page content, the metadata values and the end marker occur in the block in that
order. -/
theorem prompt_generator_renders_results (pre : List MessageLike)
    (results : List Document) (h : results ≠ []) :
    prompt_generator (pre ++ [.retrievalResponse results])
      = prompt_generator pre
        ++ [.human ("Context: <result>\n" ++ renderResponse results ++ "\n</result>")]
      ∧ renderResponse results
          = strConcat (results.enum.map fun p => renderDoc p.1 p.2)
      ∧ (∀ i doc,
          renderDoc i doc
            = ("--- Result " ++ toString i ++ " ---") ++ "\n" ++ "Text:\n"
                ++ doc.page_content ++ strConcat (presentMeta doc)
                ++ (("--- End Result " ++ toString i ++ " ---") ++ "\n")
          ∧ embeds (("--- Result " ++ toString i ++ " ---") :: doc.page_content
                :: (presentMeta doc ++ ["--- End Result " ++ toString i ++ " ---"]))
              (renderDoc i doc)) := by
  refine ⟨?_, ?_, fun i doc => ⟨renderDoc_split i doc, renderDoc_embeds i doc⟩⟩
  · rw [prompt_generator_append]
    rfl
  · cases results with
    | nil => exact absurd rfl h
    | cons d ds =>
      rw [renderResponse, if_neg (by simp : ¬((d :: ds).isEmpty = true))]
      have hf := foldl_append_eq_strConcat (fun p => renderDoc p.1 p.2)
        ((d :: ds).enum) ""
      rw [hf, String.empty_append]

theorem prompt_generator_renders_results_witness :
    prompt_generator ([] ++ [MessageLike.retrievalResponse [⟨"A", [("title", "T")]⟩]])
      = prompt_generator []
        ++ [BaseMessage.human ("Context: <result>\n"
            ++ renderResponse [⟨"A", [("title", "T")]⟩] ++ "\n</result>")]
      ∧ renderResponse [⟨"A", [("title", "T")]⟩]
          = "--- Result 0 ---\nText:\nAT\n--- End Result 0 ---\n" :=
  ⟨(prompt_generator_renders_results [] [⟨"A", [("title", "T")]⟩] (by simp)).1, rfl⟩

theorem run_succ_some {C : Type} (a : RagAgent C) (config : Option C)
    (process : List MessageLike → List MessageLike)
    (h : a.memory_manager = some process) (n : Nat) (log : List MessageLike) :
    a.run config (n + 1) log
      = (if (a.step (process log) config).isEmpty then Except.ok []
         else (a.run config n (process log ++ a.step (process log) config)).map
           (fun rest => a.step (process log) config ++ rest)) := by
  simp only [RagAgent.run, h]

theorem run_eq_roundOutputs {C : Type} (a : RagAgent C) (config : Option C)
    (process : List MessageLike → List MessageLike)
    (h : a.memory_manager = some process) :
    ∀ (n : Nat) (log : List MessageLike),
      a.run config n log = .ok ((a.roundOutputs config n log).flatten) := by
  intro n
  induction n with
  | zero => intro log; rfl
  | succ n ih =>
    intro log
    rw [run_succ_some a config process h n log]
    simp only [RagAgent.roundOutputs, h]
    cases hi : (a.step (process log) config).isEmpty with
    | true => simp [hi]
    | false => simp [hi, ih, Except.map]

theorem roundOutputs_length_le {C : Type} (a : RagAgent C) (config : Option C) :
    ∀ (n : Nat) (log : List MessageLike),
      (a.roundOutputs config n log).length ≤ n := by
  intro n
  induction n with
  | zero => intro log; simp [RagAgent.roundOutputs]
  | succ n ih =>
    intro log
    simp only [RagAgent.roundOutputs]
    cases hmem : a.memory_manager with
    | none => simp
    | some process =>
      cases hi : (a.step (process log) config).isEmpty with
      | true => simp [hi]
      | false =>
        simp only [hi, List.length_cons, Bool.false_eq_true, if_false]
        exact Nat.succ_le_succ (ih _)

/-- C1: with a supplied memory manager and a positive iteration count, each round of
`run` first replaces the log with `memory_manager.process(log)`, computes the step on
the processed log, stops normally when the step is empty, and otherwise produces the
new events in list order before continuing with the processed log extended by them and
one round fewer; in particular an empty first step makes `run` produce zero events,
and the number of event-producing rounds never exceeds the iteration count. -/
theorem run_round_structure {C : Type} (a : RagAgent C) (config : Option C)
    (process : List MessageLike → List MessageLike)
    (hp : a.memory_manager = some process) (n : Nat) (hn : 0 < n)
    (log : List MessageLike) :
    (a.run config n log
        = (if (a.step (process log) config).isEmpty then Except.ok []
           else (a.run config (n - 1) (process log ++ a.step (process log) config)).map
             (fun rest => a.step (process log) config ++ rest)))
      ∧ (a.step (process log) config = [] → a.run config n log = .ok [])
      ∧ (a.roundOutputs config n log).length ≤ n := by
  obtain ⟨m, rfl⟩ : ∃ m, n = m + 1 := ⟨n - 1, (Nat.sub_add_cancel hn).symm⟩
  refine ⟨?_, ?_, roundOutputs_length_le a config (m + 1) log⟩
  · simpa using run_succ_some a config process hp m log
  · intro hstep
    rw [run_succ_some a config process hp m log]
    simp [hstep]

theorem run_round_structure_witness : exAgent.run none 1 [] = Except.ok [] := by
  have h := run_round_structure exAgent none id rfl 1 (by decide) []
  exact h.2.1 rfl

/-- C6: `run` is bounded: with a supplied memory manager it raises no error and its
output is exactly the concatenation of the per-round step outputs — no exhaustion
signal is appended when the cap is reached — the number of rounds that produce events
is at most `max_iterations`, and the default cap is 100. Termination holds by
construction: `run` is a total function of the iteration count. -/
theorem run_bounded_and_silent {C : Type} (a : RagAgent C) (config : Option C)
    (process : List MessageLike → List MessageLike)
    (h : a.memory_manager = some process) (n : Nat) (log : List MessageLike) :
    a.run config n log = .ok ((a.roundOutputs config n log).flatten)
      ∧ (a.roundOutputs config n log).length ≤ n
      ∧ a.runDefault config log = a.run config 100 log :=
  ⟨run_eq_roundOutputs a config process h n log,
    roundOutputs_length_le a config n log, rfl⟩

theorem run_bounded_and_silent_witness :
    exAgent.run none 1 [] = Except.ok ((exAgent.roundOutputs none 1 []).flatten)
      ∧ (exAgent.roundOutputs none 1 []).length ≤ 1 := by
  have h := run_bounded_and_silent exAgent none id rfl 1 []
  exact ⟨h.1, h.2.1⟩

/-- C7: the memory manager is stored at construction exactly as supplied — no default
manager is substituted for an omitted one, unlike the retriever, so a working agent
requires the caller to supply it — and `run` applies `memory_manager.process` to the
log unconditionally on every round: an agent constructed without a memory manager
fails with an `AttributeError` on the first round of any positive-iteration `run`,
never silently passing the log through unchanged, while with a supplied manager every
round starts by processing the log. -/
theorem memory_manager_required_no_default {C : Type}
    (llm_program : List MessageLike → Option C → List MessageLike)
    (retriever : Option (String → Option C → List Document))
    (config : Option C) (log : List MessageLike) (n : Nat) (hn : 0 < n) :
    (∀ mm, (mkRagAgent llm_program retriever mm).memory_manager = mm)
      ∧ (mkRagAgent llm_program retriever none).run config n log
          = .error (.attributeError "NoneType object has no attribute process")
      ∧ (∀ (a : RagAgent C) (process : List MessageLike → List MessageLike),
          a.memory_manager = some process →
          a.run config n log
            = (if (a.step (process log) config).isEmpty then Except.ok []
               else (a.run config (n - 1)
                   (process log ++ a.step (process log) config)).map
                 (fun rest => a.step (process log) config ++ rest))) := by
  obtain ⟨m, rfl⟩ : ∃ m, n = m + 1 := ⟨n - 1, (Nat.sub_add_cancel hn).symm⟩
  refine ⟨fun mm => rfl, ?_, ?_⟩
  · simp [RagAgent.run, mkRagAgent]
  · intro a process hp
    simpa using run_succ_some a config process hp m log

theorem memory_manager_required_no_default_witness :
    (mkRagAgent (fun (_ : List MessageLike) (_ : Option Unit) => ([] : List MessageLike))
        none none).run none 1 []
      = .error (.attributeError "NoneType object has no attribute process") :=
  (memory_manager_required_no_default
    (fun (_ : List MessageLike) (_ : Option Unit) => ([] : List MessageLike))
    none none [] 1 (by decide)).2.1
